import Mathlib

/-!
# Method registry and message dispatcher of golang-socketio (`handler.go`)

A shallow embedding of `handler.go`: the method registry (`On`, `findMethod`),
the lifecycle dispatcher (`callLoopEvent`) and the message dispatcher
(`processIncomingMessage`).

Conventions of the embedding

* A Go `map[K]V` is a function `K → Option V`; a lookup `v, ok := m[k]` is the
  value of that function at `k` (`none` stands for `ok = false`).
* A Go `error` is the text returned by its `Error()` method.
* The locks of `methods` are not modelled: every function is one atomic step.
* Effects are recorded, in program order, as a list of `Event`s: calls of
  `log.Printf`, handler invocations, calls of `send`, sends on a waiter channel.
* A handler is opaque: calling it is recorded as one `Event.call`, and
  `callFunc` gives the values it returns; what the body of the handler does is
  not part of the trace.
* Functions that `handler.go` calls but does not define (`newCaller`,
  `callFunc`, `getArgs`, `getWaiter`, `strconv.Unquote`, `json.Unmarshal`,
  `json.Marshal`) are fields of a `Runtime` record, so every general theorem
  holds for all of their implementations.
-/

namespace GoSocketIO

/-! ## Constants (handler.go, lines 14-18) -/

def OnConnection : String := "connection"

def OnDisconnection : String := "disconnection"

def OnError : String := "error"

/-! ## Data model -/

/-- Modelled from the spec: the handler descriptor `caller`, whose declaration
(caller.go) is not among the sources. `handler.go` reads the fields
`ArgsPresent` and `Out`; `Func` and `Args` are handles standing for the wrapped
function and for the argument shape ("Handler Descriptor: acceptsArguments,
argumentShape, producesResult"). -/
structure caller where
  Func : Nat
  Args : Nat
  ArgsPresent : Bool
  Out : Bool
  deriving DecidableEq, Repr

/-- The type `systemHandler func(c *Channel)`: a handle of the function. -/
abbrev systemHandler := Nat

/-- The struct `methods` (the two locks are not modelled). -/
structure methods where
  messageHandlers : String → Option caller
  onConnection : Option systemHandler
  onDisconnection : Option systemHandler

/-- The function `initMethods`: a fresh, empty handler map. -/
def methods.initMethods (m : methods) : methods :=
  { m with messageHandlers := fun _ => none }

/-- The function `On`: build the descriptor, and on success bind it to `method`.
Returns the registry after the call and the returned error (`none` is `nil`). -/
def methods.On {F : Type} (newCaller : F → Except String caller)
    (m : methods) (method : String) (f : F) : methods × Option String :=
  match newCaller f with
  | .error err => (m, some err)
  | .ok c =>
    ({ m with messageHandlers :=
        fun k => if k = method then some c else m.messageHandlers k }, none)

/-- The function `findMethod`: the pair `(f, ok)` as an `Option`. -/
def methods.findMethod (m : methods) (method : String) : Option caller :=
  m.messageHandlers method

/-- Modelled from the spec: the message kinds of package `protocol`, which is
not among the sources ("kind: one of Emit, AckRequest, AckResponse"). `Other`
stands for every value of `msg.Type` that none of the three `case`s of the
switch in `processIncomingMessage` matches. -/
inductive MessageType where
  | Emit
  | AckRequest
  | AckResponse
  | Other
  deriving DecidableEq, Repr

/-- Modelled from the spec: the decoded message `protocol.Message`, with the
four fields `handler.go` reads or writes (`Type`, `AckId`, `Method`, `Args`);
the field `Type` is named `MsgType` here. -/
structure Message where
  MsgType : MessageType
  AckId : Int
  Method : String
  Args : String
  deriving DecidableEq, Repr

/-- Modelled from the spec: the waiter registry behind `c.ack` (ack.go is not
among the sources): "mapping correlationId → a single-use reply slot". A reply
slot (a Go `chan string`) is a handle. -/
structure ackProcessor where
  resultWaiters : Int → Option Nat

/-- The connection handle `*Channel`: its identity and the waiter registry it
carries (`c.ack`), the only field `handler.go` uses. -/
structure Channel where
  id : Nat
  ack : ackProcessor

/-- The observable actions of the dispatcher, in program order. `V` is the type
of Go values passed to and returned by handlers. -/
inductive Event (V : Type) where
  /-- a call `log.Printf(format, args...)` -/
  | log (format : String) (args : List String)
  /-- a call `h(c)` of a lifecycle handler -/
  | system (h : systemHandler) (c : Nat)
  /-- a call `f.callFunc(c, args)` -/
  | call (f : caller) (c : Nat) (args : V)
  /-- a call `send(msg, c, args)` -/
  | send (msg : Message) (c : Nat) (args : String)
  /-- a channel send `waiter <- payload` -/
  | deliver (waiter : Nat) (payload : String)
  deriving DecidableEq, Repr

/-- What a dispatcher call leaves behind: the registry, the channel, the
recorded actions, and whether the call ended in a run-time panic. -/
structure Outcome (V : Type) where
  m : methods
  c : Channel
  events : List (Event V)
  panicked : Bool

/-- The functions `handler.go` calls without defining them. `F` is the type of
values handed to `On`, `V` the type of Go values seen through `interface{}`.
`callFunc f c args` is the slice of results of the call; `Unmarshal s data` is
`json.Unmarshal([]byte(s), &data)` followed by reading `data`; `getWaiter`
returns the waiter registry it leaves together with its result. -/
structure Runtime (F V : Type) where
  newCaller : F → Except String caller
  getArgs : caller → V
  callFunc : caller → Channel → V → List V
  emptyStruct : V
  Unquote : String → Except String String
  Unmarshal : String → V → Except String V
  Marshal : V → Except String String
  getWaiter : ackProcessor → Int → Except String Nat × ackProcessor

/-- The library function `strings.Trim(s, cutset)`: drop the leading and the
trailing characters of `s` that occur in `cutset`. -/
def Trim (s cutset : String) : String :=
  String.mk
    (((s.data.dropWhile (fun ch => cutset.data.contains ch)).reverse.dropWhile
      (fun ch => cutset.data.contains ch)).reverse)

/-- The function `callLoopEvent`. -/
def methods.callLoopEvent {F V : Type} (R : Runtime F V) (m : methods) (c : Channel)
    (event : String) : Outcome V :=
  let e1 : List (Event V) :=
    match m.onConnection with
    | some h => if event = OnConnection then [Event.system h c.id] else []
    | none => []
  let e2 : List (Event V) :=
    match m.onDisconnection with
    | some h => if event = OnDisconnection then [Event.system h c.id] else []
    | none => []
  match m.findMethod event with
  | none => { m := m, c := c, events := e1 ++ e2, panicked := false }
  | some f =>
    { m := m, c := c, events := e1 ++ e2 ++ [Event.call f c.id R.emptyStruct],
      panicked := false }

/-- The `case protocol.MessageTypeEmit` of `processIncomingMessage`. -/
def methods.processEmit {F V : Type} (R : Runtime F V) (m : methods) (c : Channel)
    (msg : Message) : Outcome V :=
  match m.findMethod msg.Method with
  | none =>
    { m := m, c := c, events := [Event.log "Method %s not found" [msg.Method]],
      panicked := false }
  | some f =>
    if !f.ArgsPresent then
      { m := m, c := c, events := [Event.call f c.id R.emptyStruct], panicked := false }
    else
      let data := R.getArgs f
      let args := Trim msg.Args "[,],\n"
      match R.Unquote args with
      | .error err => { m := m, c := c, events := [Event.log err []], panicked := false }
      | .ok argsString =>
        match R.Unmarshal argsString data with
        | .error err => { m := m, c := c, events := [Event.log err []], panicked := false }
        | .ok data =>
          { m := m, c := c, events := [Event.call f c.id data], panicked := false }

/-- The tail of the `case protocol.MessageTypeAckRequest` (lines 147-156), run
once the handler call `call` has returned `result`: build the ack, encode
`result[0]`, send. An empty `result` makes `result[0]` panic. -/
def ackReply {V : Type} (marshal : V → Except String String) (m : methods) (c : Channel)
    (msg : Message) (call : Event V) (result : List V) : Outcome V :=
  match result with
  | [] => { m := m, c := c, events := [call], panicked := true }
  | r :: _ =>
    let ack : Message :=
      { MsgType := MessageType.AckResponse, AckId := msg.AckId, Method := "", Args := "" }
    match marshal r with
    | .error err => { m := m, c := c, events := [call, Event.log err []], panicked := false }
    | .ok message =>
      { m := m, c := c, events := [call, Event.send ack c.id message], panicked := false }

/-- The `case protocol.MessageTypeAckRequest` of `processIncomingMessage`. -/
def methods.processAckRequest {F V : Type} (R : Runtime F V) (m : methods) (c : Channel)
    (msg : Message) : Outcome V :=
  match m.findMethod msg.Method with
  | none => { m := m, c := c, events := [], panicked := false }
  | some f =>
    if !f.Out then { m := m, c := c, events := [], panicked := false }
    else if f.ArgsPresent then
      let data := R.getArgs f
      match R.Unquote msg.Args with
      | .error err => { m := m, c := c, events := [Event.log err []], panicked := false }
      | .ok argsString =>
        match R.Unmarshal argsString data with
        | .error err => { m := m, c := c, events := [Event.log err []], panicked := false }
        | .ok data =>
          ackReply R.Marshal m c msg (Event.call f c.id data) (R.callFunc f c data)
    else
      ackReply R.Marshal m c msg (Event.call f c.id R.emptyStruct)
        (R.callFunc f c R.emptyStruct)

/-- The `case protocol.MessageTypeAckResponse` of `processIncomingMessage`. -/
def methods.processAckResponse {F V : Type} (R : Runtime F V) (m : methods) (c : Channel)
    (msg : Message) : Outcome V :=
  match R.getWaiter c.ack msg.AckId with
  | (.ok waiter, ack) =>
    { m := m, c := { c with ack := ack }, events := [Event.deliver waiter msg.Args],
      panicked := false }
  | (.error err, ack) =>
    { m := m, c := { c with ack := ack }, events := [Event.log err []], panicked := false }

/-- The function `processIncomingMessage`: the switch on `msg.Type`. -/
def methods.processIncomingMessage {F V : Type} (R : Runtime F V) (m : methods)
    (c : Channel) (msg : Message) : Outcome V :=
  match msg.MsgType with
  | .Emit => m.processEmit R c msg
  | .AckRequest => m.processAckRequest R c msg
  | .AckResponse => m.processAckResponse R c msg
  | .Other => { m := m, c := c, events := [], panicked := false }

/-- The argument the Emit branch hands to the handler (lines 101-119), or the
error it logs instead: the empty struct when the handler takes no argument,
otherwise the payload trimmed, unquoted and decoded. -/
def emitArgs {F V : Type} (R : Runtime F V) (f : caller) (msg : Message) : Except String V :=
  if !f.ArgsPresent then .ok R.emptyStruct
  else
    match R.Unquote (Trim msg.Args "[,],\n") with
    | .error err => .error err
    | .ok argsString => R.Unmarshal argsString (R.getArgs f)

/-- The argument the AckRequest branch hands to the handler (lines 128-145), or
the error it logs instead: the payload unquoted and decoded when the handler
takes an argument, otherwise the empty struct. -/
def ackRequestArgs {F V : Type} (R : Runtime F V) (f : caller) (msg : Message) :
    Except String V :=
  if f.ArgsPresent then
    match R.Unquote msg.Args with
    | .error err => .error err
    | .ok argsString => R.Unmarshal argsString (R.getArgs f)
  else .ok R.emptyStruct

/-! ## Projections of a trace -/

/-- The handler invocations of a trace: descriptor, channel, argument. -/
def invocations {V : Type} : List (Event V) → List (caller × Nat × V)
  | [] => []
  | Event.call f c a :: es => (f, c, a) :: invocations es
  | _ :: es => invocations es

/-- The outbound messages of a trace: message, channel, encoded payload. -/
def sentMessages {V : Type} : List (Event V) → List (Message × Nat × String)
  | [] => []
  | Event.send msg c a :: es => (msg, c, a) :: sentMessages es
  | _ :: es => sentMessages es

/-- The deliveries into waiter slots of a trace: slot, payload. -/
def deliveries {V : Type} : List (Event V) → List (Nat × String)
  | [] => []
  | Event.deliver w p :: es => (w, p) :: deliveries es
  | _ :: es => deliveries es

/-- The log calls of a trace: format, operands. -/
def logEntries {V : Type} : List (Event V) → List (String × List String)
  | [] => []
  | Event.log fmt args :: es => (fmt, args) :: logEntries es
  | _ :: es => logEntries es

/-! ## A reference runtime

One concrete implementation of the collaborators, used to run the dispatcher on
concrete messages. The general theorems below do not depend on it. -/

/-- Modelled from the spec: the shape of a value handed to `On`, as `newCaller`
(caller.go, not among the sources) inspects it: whether its first parameter is
the connection context, how many parameters follow it, how many results it has;
`fn` and `argType` are the handles of the function and of its argument type. -/
structure HandlerShape where
  firstIsChannel : Bool
  extraArgs : Nat
  results : Nat
  fn : Nat
  argType : Nat
  deriving DecidableEq, Repr

/-- Modelled from the spec: `newCaller` (caller.go, not among the sources).
"Fails with InvalidHandlerShape if the handler does not conform to the supported
signature patterns (zero or one argument, zero or one result, first parameter
always the connection context)"; otherwise the descriptor records argument
presence and shape and result presence. -/
def newCaller (f : HandlerShape) : Except String caller :=
  if f.firstIsChannel && decide (f.extraArgs ≤ 1) && decide (f.results ≤ 1) then
    .ok { Func := f.fn, Args := f.argType,
          ArgsPresent := decide (f.extraArgs = 1), Out := decide (f.results = 1) }
  else
    .error "InvalidHandlerShape"

/-- Modelled from the spec: `getWaiter` (ack.go, not among the sources), the
registry half of "`fulfill(correlationId, payload)`: called by the dispatcher on
AckResponse; delivers payload to the slot exactly once and removes the entry;
returns false (and logs) if no such id is outstanding". The delivery and the log
call are in `processIncomingMessage`; the lookup of the slot and the removal of
the entry are here. -/
def ackProcessor.getWaiter (a : ackProcessor) (id : Int) :
    Except String Nat × ackProcessor :=
  match a.resultWaiters id with
  | some waiter =>
    (.ok waiter, { resultWaiters := fun k => if k = id then none else a.resultWaiters k })
  | none => (.error "waiter not found", a)

/-- The Go values of the reference runtime. -/
inductive Value where
  /-- the value `&struct{}{}` -/
  | emptyStruct
  /-- a Go string -/
  | text (s : String)
  /-- a Go channel, a value `json.Marshal` does not support -/
  | channel (n : Nat)
  deriving DecidableEq, Repr

/-- The double quote character. -/
def dquote : Char := Char.ofNat 34

/-- The single quote character. -/
def squote : Char := Char.ofNat 39

/-- The backslash character. -/
def bslash : Char := Char.ofNat 92

/-- The back quote character. -/
def bquote : Char := Char.ofNat 96

/-- The text of `strconv.ErrSyntax`. -/
def ErrInvalid : String := "invalid syntax"

/-- The helper `unhex` of package strconv: the value of a hexadecimal digit. -/
def unhex (c : Char) : Option Nat :=
  if 48 ≤ c.toNat ∧ c.toNat ≤ 57 then some (c.toNat - 48)
  else if 97 ≤ c.toNat ∧ c.toNat ≤ 102 then some (c.toNat - 97 + 10)
  else if 65 ≤ c.toNat ∧ c.toNat ≤ 70 then some (c.toNat - 65 + 10)
  else none

/-- Read the digits `ds` in base `2 ^ shift` after the value `v`; `none` when
`digit` rejects one of them. -/
def readDigits (digit : Char → Option Nat) (shift : Nat) : List Char → Nat → Option Nat
  | [], v => some v
  | d :: ds, v =>
    match digit d with
    | none => none
    | some x => readDigits digit shift ds (v * 2 ^ shift + x)

/-- The value of an octal digit. -/
def unoct (c : Char) : Option Nat :=
  if 48 ≤ c.toNat ∧ c.toNat ≤ 55 then some (c.toNat - 48) else none

/-- The library predicate `utf8.ValidRune`. -/
def ValidRune (v : Nat) : Bool :=
  decide (v < 55296) || (decide (57343 < v) && decide (v ≤ 1114111))

/-- The escapes `\x`, `\u`, `\U` of `strconv.UnquoteChar`: `n` hexadecimal
digits; the value of `\u` and `\U` must be a valid rune. -/
def unquoteHex (n : Nat) (checked : Bool) (s : List Char) : Except String (Char × List Char) :=
  if s.length < n then .error ErrInvalid
  else
    match readDigits unhex 4 (s.take n) 0 with
    | none => .error ErrInvalid
    | some v =>
      if checked && !ValidRune v then .error ErrInvalid
      else .ok (Char.ofNat v, s.drop n)

/-- The library function `strconv.UnquoteChar` on a string of code points: the
first character of `s` after unescaping, and the rest of `s`. A byte written
with `\x` or an octal escape is the code point of the same number. -/
def UnquoteChar (s : List Char) (quote : Char) : Except String (Char × List Char) :=
  match s with
  | [] => .error ErrInvalid
  | c :: rest =>
    if c = quote ∧ (quote = squote ∨ quote = dquote) then .error ErrInvalid
    else if c ≠ bslash then .ok (c, rest)
    else
      match rest with
      | [] => .error ErrInvalid
      | e :: t =>
        if e = Char.ofNat 97 then .ok (Char.ofNat 7, t)
        else if e = Char.ofNat 98 then .ok (Char.ofNat 8, t)
        else if e = Char.ofNat 102 then .ok (Char.ofNat 12, t)
        else if e = Char.ofNat 110 then .ok (Char.ofNat 10, t)
        else if e = Char.ofNat 114 then .ok (Char.ofNat 13, t)
        else if e = Char.ofNat 116 then .ok (Char.ofNat 9, t)
        else if e = Char.ofNat 118 then .ok (Char.ofNat 11, t)
        else if e = Char.ofNat 120 then unquoteHex 2 false t
        else if e = Char.ofNat 117 then unquoteHex 4 true t
        else if e = Char.ofNat 85 then unquoteHex 8 true t
        else if 48 ≤ e.toNat ∧ e.toNat ≤ 55 then
          if t.length < 2 then .error ErrInvalid
          else
            match readDigits unoct 3 (t.take 2) (e.toNat - 48) with
            | none => .error ErrInvalid
            | some v => if 255 < v then .error ErrInvalid else .ok (Char.ofNat v, t.drop 2)
        else if e = bslash then .ok (bslash, t)
        else if e = squote ∨ e = dquote then
          if e ≠ quote then .error ErrInvalid else .ok (e, t)
        else .error ErrInvalid

/-- The unescaping loop of `strconv.Unquote`; `fuel` bounds the number of
iterations, each of which consumes at least one character of `s`. -/
def unquoteLoop (quote : Char) : Nat → List Char → List Char → Except String (List Char)
  | _, [], acc => .ok acc.reverse
  | 0, _ :: _, _ => .error ErrInvalid
  | fuel + 1, c :: cs, acc =>
    match UnquoteChar (c :: cs) quote with
    | .error err => .error err
    | .ok (r, rest) =>
      if quote = squote ∧ rest ≠ [] then .error ErrInvalid
      else unquoteLoop quote fuel rest (r :: acc)

/-- The library function `strconv.Unquote` on a string of code points. -/
def Unquote (s : String) : Except String String :=
  match s.data with
  | [] => .error ErrInvalid
  | [_] => .error ErrInvalid
  | quote :: rest =>
    if rest.getLast? ≠ some quote then .error ErrInvalid
    else
      let body := rest.dropLast
      if quote = bquote then
        if body.contains bquote then .error ErrInvalid
        else .ok (String.mk (body.filter (fun ch => ch ≠ Char.ofNat 13)))
      else if quote ≠ dquote ∧ quote ≠ squote then .error ErrInvalid
      else if body.contains (Char.ofNat 10) then .error ErrInvalid
      else
        match unquoteLoop quote body.length body [] with
        | .error err => .error err
        | .ok out => .ok (String.mk out)

/-- The text `json.Marshal` writes for one character of a string (backspace and
form feed are written as `\u0008` and `\u000c`, as Go did before 1.22). -/
def jsonEscape (c : Char) : List Char :=
  if c = dquote then [bslash, dquote]
  else if c = bslash then [bslash, bslash]
  else if c = Char.ofNat 10 then [bslash, Char.ofNat 110]
  else if c = Char.ofNat 13 then [bslash, Char.ofNat 114]
  else if c = Char.ofNat 9 then [bslash, Char.ofNat 116]
  else if c.toNat < 32 ∨ c = Char.ofNat 60 ∨ c = Char.ofNat 62 ∨ c = Char.ofNat 38
      ∨ c = Char.ofNat 8232 ∨ c = Char.ofNat 8233 then
    [bslash, Char.ofNat 117] ++
      (List.map Nat.digitChar
        [c.toNat / 4096 % 16, c.toNat / 256 % 16, c.toNat / 16 % 16, c.toNat % 16])
  else [c]

/-- The reference `json.Marshal`: a string is written as a JSON string, the
empty struct as an empty object, a channel is refused. -/
def jsonMarshal : Value → Except String String
  | .emptyStruct => .ok (String.mk [Char.ofNat 123, Char.ofNat 125])
  | .text s => .ok (String.mk ([dquote] ++ (s.data.map jsonEscape).flatten ++ [dquote]))
  | .channel _ => .error "json: unsupported type: chan int"

/-- The reference `json.Unmarshal` into a string: a JSON string without escape
sequences is stored; the literal `null` leaves the target as it is; every other
input is refused. (Strings with escape sequences, which `json.Unmarshal`
accepts, are outside this reference decoder.) -/
def jsonUnmarshal (s : String) (data : Value) : Except String Value :=
  if s = "null" then .ok data
  else
    match s.data with
    | [] => .error "unexpected end of JSON input"
    | [_] => .error "invalid JSON input"
    | q :: rest =>
      if q = dquote ∧ rest.getLast? = some dquote ∧
          rest.dropLast.all (fun ch => ch ≠ dquote && ch ≠ bslash && decide (32 ≤ ch.toNat)) then
        match data with
        | .text _ => .ok (.text (String.mk rest.dropLast))
        | other => .ok other
      else .error "invalid JSON input"

/-- The handlers of the reference runtime, by handle: handler 1 returns its
argument, handler 2 returns a channel, every other handler returns `"ok"`. -/
def handlerBody (fn : Nat) (_c : Channel) (args : Value) : Value :=
  if fn = 1 then args else if fn = 2 then .channel 0 else .text "ok"

/-- Modelled from the spec: `callFunc` (caller.go, not among the sources).
"Calls the underlying handler with (connectionContext, decodedArgs?). If
descriptor.producesResult, captures and returns the single result value;
otherwise returns nothing." -/
def callFunc {V : Type} (body : Nat → Channel → V → V) (f : caller) (c : Channel)
    (args : V) : List V :=
  if f.Out then [body f.Func c args] else []

/-- The reference runtime. -/
def refRuntime : Runtime HandlerShape Value where
  newCaller := newCaller
  getArgs := fun _ => Value.text ""
  callFunc := callFunc handlerBody
  emptyStruct := Value.emptyStruct
  Unquote := Unquote
  Unmarshal := jsonUnmarshal
  Marshal := jsonMarshal
  getWaiter := ackProcessor.getWaiter

/-- A registry with no handler. -/
def emptyMethods : methods :=
  { messageHandlers := fun _ => none, onConnection := none, onDisconnection := none }

/-- A channel with no outstanding waiter. -/
def idleChannel : Channel := { id := 1, ack := { resultWaiters := fun _ => none } }

/-- The library function `fmt.Sprintf` for a format whose only verbs are `%s`
and whose operands are strings: each `%s` is replaced by the next operand (by
`%!s(MISSING)` when the operands are used up). -/
def sprintfChars : List Char → List String → List Char
  | [], _ => []
  | c :: rest, args =>
    if c = '%' then
      match rest, args with
      | 's' :: rest2, a :: more => a.data ++ sprintfChars rest2 more
      | 's' :: rest2, [] => "%!s(MISSING)".data ++ sprintfChars rest2 []
      | rest1, args1 => c :: sprintfChars rest1 args1
    else c :: sprintfChars rest args

/-- The line a call `log.Printf(format, args...)` writes, for the formats of
`sprintfChars`. -/
def Sprintf (format : String) (args : List String) : String :=
  String.mk (sprintfChars format.data args)

/-- A handler `func(c *Channel, s string) string` that returns its argument. -/
def echoHandler : HandlerShape :=
  { firstIsChannel := true, extraArgs := 1, results := 1, fn := 1, argType := 1 }

/-- A handler `func(c *Channel)`: no argument, no result. -/
def plainHandler : HandlerShape :=
  { firstIsChannel := true, extraArgs := 0, results := 0, fn := 3, argType := 0 }

/-- A handler `func(c *Channel) string`: no argument, one result. -/
def statusHandler : HandlerShape :=
  { firstIsChannel := true, extraArgs := 0, results := 1, fn := 4, argType := 0 }

/-- A value `func(s string) (string, error)`, which `newCaller` refuses. -/
def badHandler : HandlerShape :=
  { firstIsChannel := false, extraArgs := 0, results := 2, fn := 5, argType := 0 }

/-- The registry after `On("echo", echoHandler)`. -/
def echoMethods : methods := (emptyMethods.On newCaller "echo" echoHandler).1

/-- The registry after `On("quit", plainHandler)`. -/
def quitMethods : methods := (emptyMethods.On newCaller "quit" plainHandler).1

/-- A channel with one outstanding waiter, slot 5, for correlation id 7. -/
def waitingChannel : Channel :=
  { id := 1, ack := { resultWaiters := fun k => if k = 7 then some 5 else none } }

/-- A handler `func(c *Channel, s string)`: one argument, no result. -/
def sinkHandler : HandlerShape :=
  { firstIsChannel := true, extraArgs := 1, results := 0, fn := 6, argType := 1 }

/-- The registry after `On("sink", sinkHandler)`. -/
def sinkMethods : methods := (emptyMethods.On newCaller "sink" sinkHandler).1

/-! ## Shared lemmas -/

/-- The result of `On` when `newCaller` accepts the handler value. -/
theorem On_accepted {F : Type} (nc : F → Except String caller) (m : methods) (name : String)
    (f : F) (c : caller) (h : nc f = .ok c) :
    m.On nc name f =
      ({ m with messageHandlers :=
          fun k => if k = name then some c else m.messageHandlers k }, none) := by
  simp [methods.On, h]

/-- The result of `On` when `newCaller` refuses the handler value. -/
theorem On_refused {F : Type} (nc : F → Except String caller) (m : methods) (name : String)
    (f : F) (e : String) (h : nc f = .error e) :
    m.On nc name f = (m, some e) := by
  simp [methods.On, h]

/-! ## The registry: `On` and `findMethod` -/

/-- C1: for every registry, name and handler value that `newCaller` accepts,
`On` returns no error and `findMethod(name)` right after it finds exactly the
descriptor `newCaller` built, whatever was bound to the name before. -/
theorem findMethod_after_On {F : Type} (nc : F → Except String caller) (m : methods)
    (name : String) (f : F) (c : caller) (h : nc f = .ok c) :
    (m.On nc name f).2 = none ∧ (m.On nc name f).1.findMethod name = some c := by
  rw [On_accepted nc m name f c h]
  simp [methods.findMethod]

/-- Witness of C1: `"echo"` is bound to the echo descriptor, then re-bound to the
descriptor of a handler without argument and result; the lookup finds the
latter. -/
theorem findMethod_after_On_witness :
    echoMethods.findMethod "echo" = some ⟨1, 1, true, true⟩ ∧
      (echoMethods.On newCaller "echo" plainHandler).2 = none ∧
      (echoMethods.On newCaller "echo" plainHandler).1.findMethod "echo"
        = some ⟨3, 0, false, false⟩ :=
  ⟨by decide, findMethod_after_On newCaller echoMethods "echo" plainHandler
    ⟨3, 0, false, false⟩ rfl⟩

/-- C2: `On` returns an error exactly when `newCaller` does; it is then the error
of `newCaller`, and the registry is the one before the call, so `findMethod`
answers every name as before. -/
theorem On_error_iff {F : Type} (nc : F → Except String caller) (m : methods)
    (name : String) (f : F) :
    ((m.On nc name f).2.isSome = true ↔ ∃ e, nc f = .error e) ∧
      (∀ e, nc f = .error e →
        (m.On nc name f).2 = some e ∧ (m.On nc name f).1 = m ∧
          ∀ k, (m.On nc name f).1.findMethod k = m.findMethod k) := by
  constructor
  · cases h : nc f with
    | error e => simp [On_refused nc m name f e h]
    | ok c => simp [On_accepted nc m name f c h]
  · intro e h
    simp [On_refused nc m name f e h]

/-- Witness of C2: a value with two results is refused, and `"echo"` stays bound
to the echo descriptor. -/
theorem On_error_iff_witness :
    newCaller badHandler = .error "InvalidHandlerShape" ∧
      (echoMethods.On newCaller "echo" badHandler).2 = some "InvalidHandlerShape" ∧
      (echoMethods.On newCaller "echo" badHandler).1 = echoMethods ∧
      ∀ k, (echoMethods.On newCaller "echo" badHandler).1.findMethod k
        = echoMethods.findMethod k :=
  ⟨rfl, (On_error_iff newCaller echoMethods "echo" badHandler).2
    "InvalidHandlerShape" rfl⟩

/-! ## The dispatcher: ack-requests -/

/-- The trace of the tail of the AckRequest branch when the result encodes: the
handler call, then the send of the message `ack` built at lines 147-150. -/
theorem ackReply_sent {V : Type} (marshal : V → Except String String) (m : methods)
    (c : Channel) (msg : Message) (f : caller) (a : V) (r : V) (rs : List V)
    (message : String) (h : marshal r = .ok message) :
    (ackReply marshal m c msg (Event.call f c.id a) (r :: rs)).events =
      [Event.call f c.id a,
        Event.send ⟨MessageType.AckResponse, msg.AckId, "", ""⟩ c.id message] := by
  simp [ackReply, h]

/-- The trace of the tail of the AckRequest branch when the result does not
encode: the handler call, then a log call. -/
theorem ackReply_failed {V : Type} (marshal : V → Except String String) (m : methods)
    (c : Channel) (msg : Message) (f : caller) (a : V) (r : V) (rs : List V)
    (err : String) (h : marshal r = .error err) :
    (ackReply marshal m c msg (Event.call f c.id a) (r :: rs)).events =
      [Event.call f c.id a, Event.log err []] := by
  simp [ackReply, h]

/-- The AckRequest branch for a registered handler with `Out = true`, in terms
of `ackRequestArgs`. -/
theorem processAckRequest_out {F V : Type} (R : Runtime F V) (m : methods) (c : Channel)
    (msg : Message) (f : caller) (hf : m.findMethod msg.Method = some f)
    (hout : f.Out = true) :
    m.processAckRequest R c msg =
      match ackRequestArgs R f msg with
      | .error err => { m := m, c := c, events := [Event.log err []], panicked := false }
      | .ok data =>
        ackReply R.Marshal m c msg (Event.call f c.id data) (R.callFunc f c data) := by
  unfold methods.processAckRequest ackRequestArgs
  rw [hf]
  simp only [hout]
  cases hap : f.ArgsPresent
  · simp
  · simp only [Bool.not_true, Bool.false_eq_true, ↓reduceIte]
    cases R.Unquote msg.Args with
    | error e => rfl
    | ok s => rfl

/-- C3 (as amended): for an AckRequest whose method is registered with a handler
with `Out = true`: when the payload decodes, the call returns a result and the
result encodes, exactly one message is sent, of type AckResponse, with the AckId
of the request and the encoded result; when the payload does not decode, or the
result does not encode, no message is sent. -/
theorem ackRequest_reply {F V : Type} (R : Runtime F V) (m : methods) (c : Channel)
    (msg : Message) (f : caller) (hty : msg.MsgType = MessageType.AckRequest)
    (hf : m.findMethod msg.Method = some f) (hout : f.Out = true) :
    (∀ data r rs message, ackRequestArgs R f msg = .ok data →
        R.callFunc f c data = r :: rs → R.Marshal r = .ok message →
        sentMessages (m.processIncomingMessage R c msg).events =
          [(⟨MessageType.AckResponse, msg.AckId, "", ""⟩, c.id, message)]) ∧
      (∀ err, ackRequestArgs R f msg = .error err →
        sentMessages (m.processIncomingMessage R c msg).events = []) ∧
      (∀ data r rs err, ackRequestArgs R f msg = .ok data →
        R.callFunc f c data = r :: rs → R.Marshal r = .error err →
        sentMessages (m.processIncomingMessage R c msg).events = []) := by
  have hp : m.processIncomingMessage R c msg = m.processAckRequest R c msg := by
    simp [methods.processIncomingMessage, hty]
  rw [hp, processAckRequest_out R m c msg f hf hout]
  refine ⟨?_, ?_, ?_⟩
  · intro data r rs message hd hc hm
    simp only [hd, hc, ackReply_sent R.Marshal m c msg f data r rs message hm]
    rfl
  · intro err hd
    simp only [hd]
    rfl
  · intro data r rs err hd hc hm
    simp only [hd, hc, ackReply_failed R.Marshal m c msg f data r rs err hm]
    rfl

/-- Witness of C3 (as amended): the ack-request `echo`, id 7, payload `"\"hi\""`
is answered by one AckResponse with id 7 and payload `"hi"`. -/
theorem ackRequest_reply_witness :
    sentMessages (echoMethods.processIncomingMessage refRuntime idleChannel
        ⟨MessageType.AckRequest, 7, "echo", "\"\\\"hi\\\"\""⟩).events =
      [(⟨MessageType.AckResponse, 7, "", ""⟩, 1, "\"hi\"")] :=
  (ackRequest_reply refRuntime echoMethods idleChannel
    ⟨MessageType.AckRequest, 7, "echo", "\"\\\"hi\\\"\""⟩ ⟨1, 1, true, true⟩
    rfl rfl rfl).1 (Value.text "hi") (Value.text "hi") [] "\"hi\"" rfl rfl rfl

/-- Counterexample to C3: the ack-request `echo`, id 7, with the empty payload.
The method is registered with a handler with `Out = true`, `strconv.Unquote("")`
fails, and no message is sent: the only action is a log call. -/
theorem ackRequest_reply_counterexample :
    echoMethods.findMethod "echo" = some ⟨1, 1, true, true⟩ ∧
      (echoMethods.processIncomingMessage refRuntime idleChannel
        ⟨MessageType.AckRequest, 7, "echo", ""⟩).events
        = [Event.log "invalid syntax" []] ∧
      sentMessages (echoMethods.processIncomingMessage refRuntime idleChannel
        ⟨MessageType.AckRequest, 7, "echo", ""⟩).events = [] := by
  decide

/-- C4: an AckRequest whose method is registered with a handler with
`Out = false` sends no outbound message. -/
theorem ackRequest_no_result {F V : Type} (R : Runtime F V) (m : methods) (c : Channel)
    (msg : Message) (f : caller) (hty : msg.MsgType = MessageType.AckRequest)
    (hf : m.findMethod msg.Method = some f) (hout : f.Out = false) :
    sentMessages (m.processIncomingMessage R c msg).events = [] := by
  simp [methods.processIncomingMessage, hty, methods.processAckRequest, hf, hout,
    sentMessages]

/-- Witness of C4: an ack-request for `quit`, bound to a handler without
result. -/
theorem ackRequest_no_result_witness :
    quitMethods.findMethod "quit" = some ⟨3, 0, false, false⟩ ∧
      sentMessages (quitMethods.processIncomingMessage refRuntime idleChannel
        ⟨MessageType.AckRequest, 7, "quit", ""⟩).events = [] :=
  ⟨by decide, ackRequest_no_result refRuntime quitMethods idleChannel
    ⟨MessageType.AckRequest, 7, "quit", ""⟩ ⟨3, 0, false, false⟩ rfl rfl rfl⟩

/-! ## The dispatcher: unknown methods -/

/-- C5: an Emit whose method is not in the registry has one action, the log
call `log.Printf("Method %s not found", msg.Method)`, whose line contains the
method name; no handler is invoked, nothing is sent, nothing is delivered to a
waiter, the registry and the channel are as before, and the call does not
panic. -/
theorem emit_unknown_method {F V : Type} (R : Runtime F V) (m : methods) (c : Channel)
    (msg : Message) (hty : msg.MsgType = MessageType.Emit)
    (hf : m.findMethod msg.Method = none) :
    (m.processIncomingMessage R c msg).events
        = [Event.log "Method %s not found" [msg.Method]] ∧
      Sprintf "Method %s not found" [msg.Method]
        = "Method " ++ msg.Method ++ " not found" ∧
      invocations (m.processIncomingMessage R c msg).events = [] ∧
      sentMessages (m.processIncomingMessage R c msg).events = [] ∧
      deliveries (m.processIncomingMessage R c msg).events = [] ∧
      (m.processIncomingMessage R c msg).m = m ∧
      (m.processIncomingMessage R c msg).c = c ∧
      (m.processIncomingMessage R c msg).panicked = false := by
  have hp : m.processIncomingMessage R c msg =
      { m := m, c := c, events := [Event.log "Method %s not found" [msg.Method]],
        panicked := false } := by
    simp [methods.processIncomingMessage, hty, methods.processEmit, hf]
  rw [hp]
  exact ⟨rfl, rfl, rfl, rfl, rfl, rfl, rfl, rfl⟩

/-- Witness of C5: the emit `ping` on a registry without handlers. -/
theorem emit_unknown_method_witness :
    (emptyMethods.processIncomingMessage refRuntime idleChannel
        ⟨MessageType.Emit, 0, "ping", ""⟩).events
        = [Event.log "Method %s not found" ["ping"]] ∧
      Sprintf "Method %s not found" ["ping"] = "Method ping not found" :=
  ⟨(emit_unknown_method refRuntime emptyMethods idleChannel
      ⟨MessageType.Emit, 0, "ping", ""⟩ rfl rfl).1,
    by decide⟩

/-- Counterexample to C6: the ack-request `ping` on a registry without handlers
produces no log entry (and no other action). -/
theorem dispatch_absent_method_counterexample :
    emptyMethods.findMethod "ping" = none ∧
      (emptyMethods.processIncomingMessage refRuntime idleChannel
        ⟨MessageType.AckRequest, 7, "ping", ""⟩).events = [] ∧
      logEntries (emptyMethods.processIncomingMessage refRuntime idleChannel
        ⟨MessageType.AckRequest, 7, "ping", ""⟩).events = [] := by
  decide

/-- C6 (as amended): for a message of kind Emit or AckRequest whose method is
absent from the registry, no handler is invoked and nothing is sent; an Emit
produces one log entry, naming the method; an AckRequest produces no log entry
and no other action. -/
theorem dispatch_absent_method {F V : Type} (R : Runtime F V) (m : methods) (c : Channel)
    (msg : Message)
    (hty : msg.MsgType = MessageType.Emit ∨ msg.MsgType = MessageType.AckRequest)
    (hf : m.findMethod msg.Method = none) :
    invocations (m.processIncomingMessage R c msg).events = [] ∧
      sentMessages (m.processIncomingMessage R c msg).events = [] ∧
      (msg.MsgType = MessageType.Emit →
        logEntries (m.processIncomingMessage R c msg).events
          = [("Method %s not found", [msg.Method])]) ∧
      (msg.MsgType = MessageType.AckRequest →
        (m.processIncomingMessage R c msg).events = []) := by
  rcases hty with hty | hty
  · simp [methods.processIncomingMessage, hty, methods.processEmit, hf, invocations,
      sentMessages, logEntries]
  · simp [methods.processIncomingMessage, hty, methods.processAckRequest, hf, invocations,
      sentMessages]

/-- Witness of C6 (as amended): the emit `ping` on a registry without handlers
is logged; the ack-request `ping` leaves no trace. -/
theorem dispatch_absent_method_witness :
    logEntries (emptyMethods.processIncomingMessage refRuntime idleChannel
        ⟨MessageType.Emit, 0, "ping", ""⟩).events
        = [("Method %s not found", ["ping"])] ∧
      (emptyMethods.processIncomingMessage refRuntime idleChannel
        ⟨MessageType.AckRequest, 7, "ping", ""⟩).events = [] :=
  ⟨(dispatch_absent_method refRuntime emptyMethods idleChannel
      ⟨MessageType.Emit, 0, "ping", ""⟩ (Or.inl rfl) rfl).2.2.1 rfl,
    (dispatch_absent_method refRuntime emptyMethods idleChannel
      ⟨MessageType.AckRequest, 7, "ping", ""⟩ (Or.inr rfl) rfl).2.2.2 rfl⟩

/-! ## The dispatcher: ack-responses -/

/-- C7: for an AckResponse whose waiter lookup succeeds, the only action is one
send of `msg.Args`, unchanged, on the waiter found; no handler is invoked and no
message is sent. -/
theorem ackResponse_delivered {F V : Type} (R : Runtime F V) (m : methods) (c : Channel)
    (msg : Message) (waiter : Nat) (ack : ackProcessor)
    (hty : msg.MsgType = MessageType.AckResponse)
    (hw : R.getWaiter c.ack msg.AckId = (.ok waiter, ack)) :
    (m.processIncomingMessage R c msg).events = [Event.deliver waiter msg.Args] ∧
      deliveries (m.processIncomingMessage R c msg).events = [(waiter, msg.Args)] ∧
      invocations (m.processIncomingMessage R c msg).events = [] ∧
      sentMessages (m.processIncomingMessage R c msg).events = [] := by
  simp [methods.processIncomingMessage, hty, methods.processAckResponse, hw, deliveries,
    invocations, sentMessages]

/-- Witness of C7: the ack-response with id 7 and payload `"pong"` on a channel
where slot 5 waits for id 7. -/
theorem ackResponse_delivered_witness :
    (emptyMethods.processIncomingMessage refRuntime waitingChannel
        ⟨MessageType.AckResponse, 7, "", "\"pong\""⟩).events
        = [Event.deliver 5 "\"pong\""] :=
  (ackResponse_delivered refRuntime emptyMethods waitingChannel
    ⟨MessageType.AckResponse, 7, "", "\"pong\""⟩ 5
    (ackProcessor.getWaiter waitingChannel.ack 7).2 rfl rfl).1

/-- C8: for an AckResponse whose waiter lookup fails with `err`, the only action
is the log call `log.Printf(err)`; nothing is delivered to a waiter slot, no
handler is invoked, nothing is sent, the registry is as before, the waiter
registry is the one the lookup left, and the call does not panic. -/
theorem ackResponse_no_waiter {F V : Type} (R : Runtime F V) (m : methods) (c : Channel)
    (msg : Message) (err : String) (ack : ackProcessor)
    (hty : msg.MsgType = MessageType.AckResponse)
    (hw : R.getWaiter c.ack msg.AckId = (.error err, ack)) :
    (m.processIncomingMessage R c msg).events = [Event.log err []] ∧
      deliveries (m.processIncomingMessage R c msg).events = [] ∧
      invocations (m.processIncomingMessage R c msg).events = [] ∧
      sentMessages (m.processIncomingMessage R c msg).events = [] ∧
      (m.processIncomingMessage R c msg).m = m ∧
      (m.processIncomingMessage R c msg).c = { c with ack := ack } ∧
      (m.processIncomingMessage R c msg).panicked = false := by
  simp [methods.processIncomingMessage, hty, methods.processAckResponse, hw, deliveries,
    invocations, sentMessages]

/-- Witness of C8: the ack-response with id 8 on a channel where only id 7 is
awaited. -/
theorem ackResponse_no_waiter_witness :
    (emptyMethods.processIncomingMessage refRuntime waitingChannel
        ⟨MessageType.AckResponse, 8, "", "\"pong\""⟩).events
        = [Event.log "waiter not found" []] :=
  (ackResponse_no_waiter refRuntime emptyMethods waitingChannel
    ⟨MessageType.AckResponse, 8, "", "\"pong\""⟩ "waiter not found"
    waitingChannel.ack rfl rfl).1

/-- C9: with the waiter registry of the spec (`ackProcessor.getWaiter`), when a
waiter is outstanding for a correlation id and two AckResponse messages with
that id are dispatched one after the other, the first is delivered into the
waiter slot and removes the entry, the second finds no waiter and is only
logged: over both dispatches the slot receives one payload, the first. -/
theorem ackResponse_at_most_once {F V : Type} (R : Runtime F V) (m : methods)
    (c : Channel) (msg1 msg2 : Message) (waiter : Nat)
    (hR : R.getWaiter = ackProcessor.getWaiter)
    (h1 : msg1.MsgType = MessageType.AckResponse)
    (h2 : msg2.MsgType = MessageType.AckResponse)
    (hid : msg2.AckId = msg1.AckId)
    (hw : c.ack.resultWaiters msg1.AckId = some waiter) :
    (m.processIncomingMessage R c msg1).events = [Event.deliver waiter msg1.Args] ∧
      (m.processIncomingMessage R c msg1).c.ack.resultWaiters msg1.AckId = none ∧
      ((m.processIncomingMessage R c msg1).m.processIncomingMessage R
          (m.processIncomingMessage R c msg1).c msg2).events
        = [Event.log "waiter not found" []] ∧
      deliveries ((m.processIncomingMessage R c msg1).events ++
          ((m.processIncomingMessage R c msg1).m.processIncomingMessage R
            (m.processIncomingMessage R c msg1).c msg2).events)
        = [(waiter, msg1.Args)] := by
  have hp : m.processIncomingMessage R c msg1 =
      { m := m,
        c := { c with ack :=
          { resultWaiters := fun k => if k = msg1.AckId then none else c.ack.resultWaiters k } },
        events := [Event.deliver waiter msg1.Args], panicked := false } := by
    simp [methods.processIncomingMessage, h1, methods.processAckResponse, hR,
      ackProcessor.getWaiter, hw]
  rw [hp]
  simp [methods.processIncomingMessage, h2, methods.processAckResponse, hR,
    ackProcessor.getWaiter, hid, deliveries]

/-- Witness of C9: two ack-responses with id 7 on a channel where slot 5 waits
for id 7; slot 5 receives `"first"` only. -/
theorem ackResponse_at_most_once_witness :
    deliveries ((emptyMethods.processIncomingMessage refRuntime waitingChannel
          ⟨MessageType.AckResponse, 7, "", "first"⟩).events ++
        ((emptyMethods.processIncomingMessage refRuntime waitingChannel
            ⟨MessageType.AckResponse, 7, "", "first"⟩).m.processIncomingMessage refRuntime
          (emptyMethods.processIncomingMessage refRuntime waitingChannel
            ⟨MessageType.AckResponse, 7, "", "first"⟩).c
          ⟨MessageType.AckResponse, 7, "", "second"⟩).events)
      = [(5, "first")] :=
  (ackResponse_at_most_once refRuntime emptyMethods waitingChannel
    ⟨MessageType.AckResponse, 7, "", "first"⟩ ⟨MessageType.AckResponse, 7, "", "second"⟩ 5
    rfl rfl rfl rfl rfl).2.2.2

/-! ## Reserved names -/

/-- The Emit branch for a registered handler, in terms of `emitArgs`. -/
theorem processEmit_found {F V : Type} (R : Runtime F V) (m : methods) (c : Channel)
    (msg : Message) (f : caller) (hf : m.findMethod msg.Method = some f) :
    m.processEmit R c msg =
      match emitArgs R f msg with
      | .error err => { m := m, c := c, events := [Event.log err []], panicked := false }
      | .ok data => { m := m, c := c, events := [Event.call f c.id data], panicked := false } := by
  unfold methods.processEmit emitArgs
  rw [hf]
  cases hap : f.ArgsPresent
  · simp [hap]
  · simp only [hap, Bool.not_true, Bool.false_eq_true, ↓reduceIte]
    cases R.Unquote (Trim msg.Args "[,],\n") with
    | error e => rfl
    | ok s => rfl

/-- The handler invocations of `callLoopEvent` when a handler is bound to the
event name. -/
theorem callLoopEvent_invocations {F V : Type} (R : Runtime F V) (m : methods)
    (c : Channel) (event : String) (f : caller) (hf : m.findMethod event = some f) :
    invocations (m.callLoopEvent R c event).events = [(f, c.id, R.emptyStruct)] := by
  unfold methods.callLoopEvent
  rw [hf]
  cases m.onConnection <;> cases m.onDisconnection <;>
    by_cases h1 : event = OnConnection <;> by_cases h2 : event = OnDisconnection <;>
    simp [h1, h2, invocations]

/-- Counterexample to C10: after `On("connection", plainHandler)` the lifecycle
callback `onConnection` is still unset, the descriptor is in the handler map,
and the emit `connection` invokes the handler; after `On("error",
statusHandler)` the ack-request `error` invokes the handler and is answered. -/
theorem On_reserved_name_counterexample :
    (emptyMethods.On newCaller OnConnection plainHandler).1.onConnection = none ∧
      (emptyMethods.On newCaller OnConnection plainHandler).1.findMethod "connection"
        = some ⟨3, 0, false, false⟩ ∧
      ((emptyMethods.On newCaller OnConnection plainHandler).1.processIncomingMessage
          refRuntime idleChannel ⟨MessageType.Emit, 0, "connection", ""⟩).events
        = [Event.call ⟨3, 0, false, false⟩ 1 Value.emptyStruct] ∧
      ((emptyMethods.On newCaller OnError statusHandler).1.processIncomingMessage
          refRuntime idleChannel ⟨MessageType.AckRequest, 7, "error", ""⟩).events
        = [Event.call ⟨4, 0, false, true⟩ 1 Value.emptyStruct,
            Event.send ⟨MessageType.AckResponse, 7, "", ""⟩ 1 "\"ok\""] := by
  decide

/-- C10 (as amended): for each reserved name and every handler value `newCaller`
accepts, `On` leaves the lifecycle callbacks `onConnection` and
`onDisconnection` as they were and binds the descriptor to the name in the
handler map, as for any other name; afterwards `callLoopEvent` for that name
invokes the handler with the empty argument, and an Emit whose method is that
name and whose payload decodes invokes it too. -/
theorem On_reserved_name {F V : Type} (R : Runtime F V) (m : methods) (c : Channel)
    (name : String) (f : F) (cl : caller)
    (_hname : name = OnConnection ∨ name = OnDisconnection ∨ name = OnError)
    (hnc : R.newCaller f = .ok cl) :
    (m.On R.newCaller name f).1.onConnection = m.onConnection ∧
      (m.On R.newCaller name f).1.onDisconnection = m.onDisconnection ∧
      (m.On R.newCaller name f).1.findMethod name = some cl ∧
      invocations ((m.On R.newCaller name f).1.callLoopEvent R c name).events
        = [(cl, c.id, R.emptyStruct)] ∧
      (∀ msg data, msg.MsgType = MessageType.Emit → msg.Method = name →
        emitArgs R cl msg = .ok data →
        invocations ((m.On R.newCaller name f).1.processIncomingMessage R c msg).events
          = [(cl, c.id, data)]) := by
  have hfind : (m.On R.newCaller name f).1.findMethod name = some cl := by
    rw [On_accepted R.newCaller m name f cl hnc]
    simp [methods.findMethod]
  refine ⟨?_, ?_, hfind, callLoopEvent_invocations R _ c name cl hfind, ?_⟩
  · rw [On_accepted R.newCaller m name f cl hnc]
  · rw [On_accepted R.newCaller m name f cl hnc]
  · intro msg data hty hm hd
    have hp : (m.On R.newCaller name f).1.processIncomingMessage R c msg =
        (m.On R.newCaller name f).1.processEmit R c msg := by
      simp [methods.processIncomingMessage, hty]
    rw [hp, processEmit_found R _ c msg cl (by rw [hm]; exact hfind)]
    simp only [hd]
    rfl

/-- Witness of C10 (as amended): `On("disconnection", plainHandler)` on a
registry without handlers; the emit `disconnection` invokes the handler. -/
theorem On_reserved_name_witness :
    invocations (((emptyMethods.On newCaller "disconnection" plainHandler).1
        ).processIncomingMessage refRuntime idleChannel
          ⟨MessageType.Emit, 0, "disconnection", ""⟩).events
      = [(⟨3, 0, false, false⟩, 1, Value.emptyStruct)] :=
  (On_reserved_name refRuntime emptyMethods idleChannel "disconnection" plainHandler
    ⟨3, 0, false, false⟩ (Or.inr (Or.inl rfl)) rfl).2.2.2.2
    ⟨MessageType.Emit, 0, "disconnection", ""⟩ Value.emptyStruct rfl rfl rfl

/-! ## Lifecycle events -/

/-- C11: `callLoopEvent` for `"connection"` first calls `onConnection` with the
channel, once, if it is set, does not call `onDisconnection`, and then calls the
handler bound to `"connection"`, if any, once with the empty argument;
symmetrically for `"disconnection"`. When neither exists the trace is empty. -/
theorem callLoopEvent_lifecycle {F V : Type} (R : Runtime F V) (m : methods)
    (c : Channel) :
    (m.callLoopEvent R c OnConnection).events =
        (m.onConnection.map (fun h => Event.system h c.id)).toList ++
          ((m.findMethod OnConnection).map
            (fun f => Event.call f c.id R.emptyStruct)).toList ∧
      (m.callLoopEvent R c OnDisconnection).events =
        (m.onDisconnection.map (fun h => Event.system h c.id)).toList ++
          ((m.findMethod OnDisconnection).map
            (fun f => Event.call f c.id R.emptyStruct)).toList := by
  have hne : ¬ OnConnection = OnDisconnection := by decide
  have hne2 : ¬ OnDisconnection = OnConnection := by decide
  constructor
  · unfold methods.callLoopEvent
    cases m.onConnection <;> cases m.onDisconnection <;>
      cases m.findMethod OnConnection <;> simp [hne]
  · unfold methods.callLoopEvent
    cases m.onConnection <;> cases m.onDisconnection <;>
      cases m.findMethod OnDisconnection <;> simp [hne2]

/-! ## The dispatcher: payload decoding -/

/-- C12: for an Emit or an AckRequest that reaches the decoding of the payload
for a handler with `ArgsPresent = true` (for an AckRequest the handler has
`Out = true`), if `strconv.Unquote` fails, or `json.Unmarshal` fails on the
unquoted text, the only action is a log call with the error: the handler is not
invoked and nothing is sent. The Emit branch unquotes the payload after
`strings.Trim`, the AckRequest branch the payload itself. -/
theorem decode_failure_dropped {F V : Type} (R : Runtime F V) (m : methods) (c : Channel)
    (msg : Message) (f : caller) (err : String)
    (hf : m.findMethod msg.Method = some f) (hap : f.ArgsPresent = true) :
    (msg.MsgType = MessageType.Emit →
        (R.Unquote (Trim msg.Args "[,],\n") = .error err ∨
          ∃ s, R.Unquote (Trim msg.Args "[,],\n") = .ok s ∧
            R.Unmarshal s (R.getArgs f) = .error err) →
        (m.processIncomingMessage R c msg).events = [Event.log err []] ∧
          invocations (m.processIncomingMessage R c msg).events = [] ∧
          sentMessages (m.processIncomingMessage R c msg).events = []) ∧
      (msg.MsgType = MessageType.AckRequest → f.Out = true →
        (R.Unquote msg.Args = .error err ∨
          ∃ s, R.Unquote msg.Args = .ok s ∧ R.Unmarshal s (R.getArgs f) = .error err) →
        (m.processIncomingMessage R c msg).events = [Event.log err []] ∧
          invocations (m.processIncomingMessage R c msg).events = [] ∧
          sentMessages (m.processIncomingMessage R c msg).events = []) := by
  constructor
  · intro hty h
    have hp : m.processIncomingMessage R c msg =
        { m := m, c := c, events := [Event.log err []], panicked := false } := by
      rcases h with h | ⟨s, hs, hu⟩
      · simp [methods.processIncomingMessage, hty, methods.processEmit, hf, hap, h]
      · simp [methods.processIncomingMessage, hty, methods.processEmit, hf, hap, hs, hu]
    rw [hp]
    exact ⟨rfl, rfl, rfl⟩
  · intro hty hout h
    have hp : m.processIncomingMessage R c msg =
        { m := m, c := c, events := [Event.log err []], panicked := false } := by
      rcases h with h | ⟨s, hs, hu⟩
      · simp [methods.processIncomingMessage, hty, methods.processAckRequest, hf, hap,
          hout, h]
      · simp [methods.processIncomingMessage, hty, methods.processAckRequest, hf, hap,
          hout, hs, hu]
    rw [hp]
    exact ⟨rfl, rfl, rfl⟩

/-- Witness of C12: the emit `echo` with the payload `[12]`, which does not
unquote, and the ack-request `echo` with the payload `"12"`, which unquotes to
`12` and does not decode into a string. -/
theorem decode_failure_dropped_witness :
    (echoMethods.processIncomingMessage refRuntime idleChannel
        ⟨MessageType.Emit, 0, "echo", "[12]"⟩).events
        = [Event.log "invalid syntax" []] ∧
      (echoMethods.processIncomingMessage refRuntime idleChannel
        ⟨MessageType.AckRequest, 7, "echo", "\"12\""⟩).events
        = [Event.log "invalid JSON input" []] :=
  ⟨((decode_failure_dropped refRuntime echoMethods idleChannel
      ⟨MessageType.Emit, 0, "echo", "[12]"⟩ ⟨1, 1, true, true⟩ "invalid syntax"
      rfl rfl).1 rfl (Or.inl rfl)).1,
    ((decode_failure_dropped refRuntime echoMethods idleChannel
      ⟨MessageType.AckRequest, 7, "echo", "\"12\""⟩ ⟨1, 1, true, true⟩
      "invalid JSON input" rfl rfl).2 rfl rfl (Or.inr ⟨"12", rfl, rfl⟩)).1⟩

/-- C13: an Emit whose method is bound to a handler with `ArgsPresent = false`
has one action, the call of the handler with the channel and the empty
argument; the trace is the same for every payload and for every implementation
of the decoding functions. -/
theorem emit_without_args {F V : Type} (R : Runtime F V) (m : methods) (c : Channel)
    (msg : Message) (f : caller) (hty : msg.MsgType = MessageType.Emit)
    (hf : m.findMethod msg.Method = some f) (hap : f.ArgsPresent = false) :
    (m.processIncomingMessage R c msg).events = [Event.call f c.id R.emptyStruct] ∧
      invocations (m.processIncomingMessage R c msg).events = [(f, c.id, R.emptyStruct)] ∧
      (∀ args, (m.processIncomingMessage R c { msg with Args := args }).events
        = (m.processIncomingMessage R c msg).events) ∧
      (∀ unquote unmarshal,
        (m.processIncomingMessage { R with Unquote := unquote, Unmarshal := unmarshal }
          c msg).events = (m.processIncomingMessage R c msg).events) := by
  refine ⟨?_, ?_, ?_, ?_⟩
  · simp [methods.processIncomingMessage, hty, methods.processEmit, hf, hap]
  · simp [methods.processIncomingMessage, hty, methods.processEmit, hf, hap, invocations]
  · intro args
    simp [methods.processIncomingMessage, hty, methods.processEmit, hf, hap]
  · intro unquote unmarshal
    simp [methods.processIncomingMessage, hty, methods.processEmit, hf, hap]

/-- Witness of C13: the emit `quit`, bound to a handler without argument, with a
payload that does not unquote. -/
theorem emit_without_args_witness :
    Unquote (Trim "[x]" "[,],\n") = .error "invalid syntax" ∧
      (quitMethods.processIncomingMessage refRuntime idleChannel
        ⟨MessageType.Emit, 0, "quit", "[x]"⟩).events
        = [Event.call ⟨3, 0, false, false⟩ 1 Value.emptyStruct] :=
  ⟨rfl, (emit_without_args refRuntime quitMethods idleChannel
    ⟨MessageType.Emit, 0, "quit", "[x]"⟩ ⟨3, 0, false, false⟩ rfl rfl rfl).1⟩

/-! ## The dispatcher: at most once, no panic -/

/-- The handler invocations of the tail of the AckRequest branch: the call that
produced `result`, whatever becomes of the reply. -/
theorem ackReply_invocations {V : Type} (marshal : V → Except String String) (m : methods)
    (c : Channel) (msg : Message) (f : caller) (a : V) (result : List V) :
    invocations (ackReply marshal m c msg (Event.call f c.id a) result).events
      = [(f, c.id, a)] := by
  unfold ackReply
  cases result with
  | nil => rfl
  | cons r rs =>
    simp only
    cases marshal r <;> rfl

/-- The tail of the AckRequest branch sends at most one message. -/
theorem ackReply_sent_le {V : Type} (marshal : V → Except String String) (m : methods)
    (c : Channel) (msg : Message) (f : caller) (a : V) (result : List V) :
    (sentMessages (ackReply marshal m c msg (Event.call f c.id a) result).events).length
      ≤ 1 := by
  unfold ackReply
  cases result with
  | nil => simp [sentMessages]
  | cons r rs =>
    simp only
    cases marshal r <;> simp [sentMessages]

/-- The handler invocations of the AckRequest branch for a registered handler
with `Out = true`: one call with the decoded argument, or none when the payload
does not decode. -/
theorem processAckRequest_invocations {F V : Type} (R : Runtime F V) (m : methods)
    (c : Channel) (msg : Message) (f : caller) (hf : m.findMethod msg.Method = some f)
    (hout : f.Out = true) :
    invocations (m.processAckRequest R c msg).events =
      match ackRequestArgs R f msg with
      | .error _ => []
      | .ok data => [(f, c.id, data)] := by
  rw [processAckRequest_out R m c msg f hf hout]
  cases ackRequestArgs R f msg with
  | error e => rfl
  | ok data => exact ackReply_invocations R.Marshal m c msg f data _

/-- C14: one call of `processIncomingMessage`, for every registry and every
message of any kind, invokes at most one handler and sends at most one outbound
message; for an Emit it sends none. -/
theorem dispatch_at_most_once {F V : Type} (R : Runtime F V) (m : methods) (c : Channel)
    (msg : Message) :
    (invocations (m.processIncomingMessage R c msg).events).length ≤ 1 ∧
      (sentMessages (m.processIncomingMessage R c msg).events).length ≤ 1 ∧
      (msg.MsgType = MessageType.Emit →
        sentMessages (m.processIncomingMessage R c msg).events = []) := by
  cases hty : msg.MsgType with
  | Emit =>
    have hp : m.processIncomingMessage R c msg = m.processEmit R c msg := by
      simp [methods.processIncomingMessage, hty]
    rw [hp]
    cases hf : m.findMethod msg.Method with
    | none => simp [methods.processEmit, hf, invocations, sentMessages]
    | some f =>
      rw [processEmit_found R m c msg f hf]
      cases emitArgs R f msg <;> simp [invocations, sentMessages]
  | AckRequest =>
    have hp : m.processIncomingMessage R c msg = m.processAckRequest R c msg := by
      simp [methods.processIncomingMessage, hty]
    rw [hp]
    cases hf : m.findMethod msg.Method with
    | none => simp [methods.processAckRequest, hf, invocations, sentMessages]
    | some f =>
      cases hout : f.Out with
      | false => simp [methods.processAckRequest, hf, hout, invocations, sentMessages]
      | true =>
        refine ⟨?_, ?_, by simp⟩
        · rw [processAckRequest_invocations R m c msg f hf hout]
          cases ackRequestArgs R f msg <;> simp
        · rw [processAckRequest_out R m c msg f hf hout]
          cases ackRequestArgs R f msg with
          | error e => simp [sentMessages]
          | ok data => exact ackReply_sent_le R.Marshal m c msg f data _
  | AckResponse =>
    have hp : m.processIncomingMessage R c msg = m.processAckResponse R c msg := by
      simp [methods.processIncomingMessage, hty]
    rw [hp]
    unfold methods.processAckResponse
    rcases hw : R.getWaiter c.ack msg.AckId with ⟨res, ack⟩
    cases res <;> simp [invocations, sentMessages]
  | Other => simp [methods.processIncomingMessage, hty, invocations, sentMessages]

/-- Witness of C14: the emit `echo` with a payload that decodes invokes the
handler once and sends nothing, although the handler returns a value. -/
theorem dispatch_at_most_once_witness :
    (echoMethods.processIncomingMessage refRuntime idleChannel
        ⟨MessageType.Emit, 0, "echo", "[\"\\\"hi\\\"\"]"⟩).events
        = [Event.call ⟨1, 1, true, true⟩ 1 (Value.text "hi")] ∧
      sentMessages (echoMethods.processIncomingMessage refRuntime idleChannel
        ⟨MessageType.Emit, 0, "echo", "[\"\\\"hi\\\"\"]"⟩).events = [] :=
  ⟨by decide, (dispatch_at_most_once refRuntime echoMethods idleChannel
    ⟨MessageType.Emit, 0, "echo", "[\"\\\"hi\\\"\"]"⟩).2.2 rfl⟩

/-- C15: with `callFunc` as the spec describes it (a handler with `Out = true`
returns its single result), the slice `result` is not empty whenever the
AckRequest branch reads `result[0]`, and `processIncomingMessage` ends without a
panic for every registry, channel and message, whatever the decoding functions
and the handler return. -/
theorem dispatch_no_panic {F V : Type} (R : Runtime F V) (body : Nat → Channel → V → V)
    (m : methods) (c : Channel) (msg : Message) (hR : R.callFunc = callFunc body) :
    (∀ f a, f.Out = true → R.callFunc f c a ≠ []) ∧
      (m.processIncomingMessage R c msg).panicked = false := by
  have hne : ∀ f a, f.Out = true → R.callFunc f c a ≠ [] := by
    intro f a hout
    simp [hR, callFunc, hout]
  refine ⟨hne, ?_⟩
  cases hty : msg.MsgType with
  | Emit =>
    have hp : m.processIncomingMessage R c msg = m.processEmit R c msg := by
      simp [methods.processIncomingMessage, hty]
    rw [hp]
    cases hf : m.findMethod msg.Method with
    | none => simp [methods.processEmit, hf]
    | some f =>
      rw [processEmit_found R m c msg f hf]
      cases emitArgs R f msg <;> rfl
  | AckRequest =>
    have hp : m.processIncomingMessage R c msg = m.processAckRequest R c msg := by
      simp [methods.processIncomingMessage, hty]
    rw [hp]
    cases hf : m.findMethod msg.Method with
    | none => simp [methods.processAckRequest, hf]
    | some f =>
      cases hout : f.Out with
      | false => simp [methods.processAckRequest, hf, hout]
      | true =>
        rw [processAckRequest_out R m c msg f hf hout]
        cases ackRequestArgs R f msg with
        | error e => rfl
        | ok data =>
          simp only
          cases hres : R.callFunc f c data with
          | nil => exact absurd hres (hne f data hout)
          | cons r rs =>
            unfold ackReply
            simp only
            cases R.Marshal r <;> rfl
  | AckResponse =>
    have hp : m.processIncomingMessage R c msg = m.processAckResponse R c msg := by
      simp [methods.processIncomingMessage, hty]
    rw [hp]
    unfold methods.processAckResponse
    rcases hw : R.getWaiter c.ack msg.AckId with ⟨res, ack⟩
    cases res <;> rfl
  | Other => simp [methods.processIncomingMessage, hty]

/-- Witness of C15: the ack-request `status`, bound to a handler without
argument and with one result, is answered without a panic; so is an
ack-request whose payload does not unquote. -/
theorem dispatch_no_panic_witness :
    ((emptyMethods.On newCaller "status" statusHandler).1.processIncomingMessage
        refRuntime idleChannel ⟨MessageType.AckRequest, 7, "status", ""⟩).panicked = false ∧
      (echoMethods.processIncomingMessage refRuntime idleChannel
        ⟨MessageType.AckRequest, 7, "echo", ""⟩).panicked = false :=
  ⟨(dispatch_no_panic refRuntime handlerBody
      (emptyMethods.On newCaller "status" statusHandler).1 idleChannel
      ⟨MessageType.AckRequest, 7, "status", ""⟩ rfl).2,
    (dispatch_no_panic refRuntime handlerBody echoMethods idleChannel
      ⟨MessageType.AckRequest, 7, "echo", ""⟩ rfl).2⟩

/-! ## The dispatcher: the reply payload -/

/-- C17: the two branches at one payload, `["\"hi\""]`, for one handler, `echo`,
with `ArgsPresent = true`. The Emit branch trims the brackets, unquotes, decodes
and invokes the handler with `hi`; the AckRequest branch unquotes the payload as
it is, fails, logs the error and does not invoke the handler: here the two
branches do not decode alike. -/
theorem emit_ackRequest_decoding_diverges :
    echoMethods.findMethod "echo" = some ⟨1, 1, true, true⟩ ∧
      (echoMethods.processIncomingMessage refRuntime idleChannel
        ⟨MessageType.Emit, 7, "echo", "[\"\\\"hi\\\"\"]"⟩).events
        = [Event.call ⟨1, 1, true, true⟩ 1 (Value.text "hi")] ∧
      (echoMethods.processIncomingMessage refRuntime idleChannel
        ⟨MessageType.AckRequest, 7, "echo", "[\"\\\"hi\\\"\"]"⟩).events
        = [Event.log "invalid syntax" []] := by
  decide

/-- The decodings of the two branches side by side: for a handler with
`ArgsPresent = true` and `Out = true`, what the AckRequest branch does with the
payload `strings.Trim(p, "[,],\n")` is what the Emit branch does with `p`: both
fail and invoke nothing, or both invoke the handler once with the same decoded
argument. The Emit branch sends no response. -/
theorem trimmed_payload_decoding {F V : Type} (R : Runtime F V) (m : methods)
    (c : Channel) (f : caller) (msgE msgA : Message)
    (hE : msgE.MsgType = MessageType.Emit) (hA : msgA.MsgType = MessageType.AckRequest)
    (hmE : m.findMethod msgE.Method = some f) (hmA : m.findMethod msgA.Method = some f)
    (hap : f.ArgsPresent = true) (hout : f.Out = true)
    (hargs : msgA.Args = Trim msgE.Args "[,],\n") :
    ackRequestArgs R f msgA = emitArgs R f msgE ∧
      invocations (m.processIncomingMessage R c msgA).events
        = invocations (m.processIncomingMessage R c msgE).events ∧
      sentMessages (m.processIncomingMessage R c msgE).events = [] := by
  have hdec : ackRequestArgs R f msgA = emitArgs R f msgE := by
    simp [ackRequestArgs, emitArgs, hap, hargs]
  have hpE : m.processIncomingMessage R c msgE = m.processEmit R c msgE := by
    simp [methods.processIncomingMessage, hE]
  have hpA : m.processIncomingMessage R c msgA = m.processAckRequest R c msgA := by
    simp [methods.processIncomingMessage, hA]
  refine ⟨hdec, ?_, ?_⟩
  · rw [hpA, hpE, processAckRequest_invocations R m c msgA f hmA hout, hdec,
      processEmit_found R m c msgE f hmE]
    cases emitArgs R f msgE <;> rfl
  · rw [hpE, processEmit_found R m c msgE f hmE]
    cases emitArgs R f msgE <;> rfl

/-- The emit `echo` with the payload `["\"hi\""]` and the ack-request `echo`
with the trimmed payload `"\"hi\""` both invoke the handler with `hi`. -/
theorem trimmed_payload_decoding_echo :
    Trim "[\"\\\"hi\\\"\"]" "[,],\n" = "\"\\\"hi\\\"\"" ∧
      invocations (echoMethods.processIncomingMessage refRuntime idleChannel
        ⟨MessageType.AckRequest, 7, "echo", "\"\\\"hi\\\"\""⟩).events
        = invocations (echoMethods.processIncomingMessage refRuntime idleChannel
          ⟨MessageType.Emit, 0, "echo", "[\"\\\"hi\\\"\"]"⟩).events :=
  ⟨by decide, (trimmed_payload_decoding refRuntime echoMethods idleChannel
    ⟨1, 1, true, true⟩ ⟨MessageType.Emit, 0, "echo", "[\"\\\"hi\\\"\"]"⟩
    ⟨MessageType.AckRequest, 7, "echo", "\"\\\"hi\\\"\""⟩ rfl rfl rfl rfl rfl rfl
    (by decide)).2.1⟩

/-! ## The registry: frame -/

/-- C18: `On(n, f)` leaves the answer of `findMethod` for every other name as it
was, whether `newCaller` accepts `f` or not. -/
theorem On_frame {F : Type} (nc : F → Except String caller) (m : methods)
    (n n' : String) (f : F) (h : n' ≠ n) :
    (m.On nc n f).1.findMethod n' = m.findMethod n' := by
  cases hc : nc f with
  | error e => rw [On_refused nc m n f e hc]
  | ok c =>
    rw [On_accepted nc m n f c hc]
    simp [methods.findMethod, h]

/-- Witness of C18: binding `"quit"` on a registry where `"echo"` is bound
leaves `"echo"` bound to the echo descriptor, and `"ping"` unbound. -/
theorem On_frame_witness :
    (echoMethods.On newCaller "quit" plainHandler).1.findMethod "echo"
        = some ⟨1, 1, true, true⟩ ∧
      (echoMethods.On newCaller "quit" badHandler).1.findMethod "ping" = none :=
  ⟨(On_frame newCaller echoMethods "quit" "echo" plainHandler (by decide)).trans
      (by decide),
    (On_frame newCaller echoMethods "quit" "ping" badHandler (by decide)).trans
      (by decide)⟩

/-! ## The dispatcher: handlers without result -/

/-- Counterexample to C19: `sink` is bound to a handler with one argument and
no result; the emit `sink` with the empty payload does not invoke the handler,
it is only logged, because `strconv.Unquote("")` fails. -/
theorem no_result_handler_counterexample :
    sinkMethods.findMethod "sink" = some ⟨6, 1, true, false⟩ ∧
      (sinkMethods.processIncomingMessage refRuntime idleChannel
        ⟨MessageType.Emit, 0, "sink", ""⟩).events = [Event.log "invalid syntax" []] ∧
      invocations (sinkMethods.processIncomingMessage refRuntime idleChannel
        ⟨MessageType.Emit, 0, "sink", ""⟩).events = [] := by
  decide

/-- C19 (as amended): for a handler with `Out = false`, an AckRequest for its
method leaves an empty trace (no invocation, no log entry), whereas an Emit for
its method invokes it once when the payload decodes: always, with the empty
argument, when `ArgsPresent = false`; with the decoded payload when
`ArgsPresent = true` and the trimmed payload unquotes and decodes. An Emit whose
payload does not decode is only logged. -/
theorem no_result_handler {F V : Type} (R : Runtime F V) (m : methods) (c : Channel)
    (f : caller) (msgA msgE : Message)
    (hA : msgA.MsgType = MessageType.AckRequest) (hE : msgE.MsgType = MessageType.Emit)
    (hmA : m.findMethod msgA.Method = some f) (hmE : m.findMethod msgE.Method = some f)
    (hout : f.Out = false) :
    (m.processIncomingMessage R c msgA).events = [] ∧
      invocations (m.processIncomingMessage R c msgA).events = [] ∧
      logEntries (m.processIncomingMessage R c msgA).events = [] ∧
      (f.ArgsPresent = false →
        invocations (m.processIncomingMessage R c msgE).events
          = [(f, c.id, R.emptyStruct)]) ∧
      (∀ data, emitArgs R f msgE = .ok data →
        (m.processIncomingMessage R c msgE).events = [Event.call f c.id data] ∧
          invocations (m.processIncomingMessage R c msgE).events = [(f, c.id, data)]) ∧
      (∀ err, emitArgs R f msgE = .error err →
        (m.processIncomingMessage R c msgE).events = [Event.log err []] ∧
          invocations (m.processIncomingMessage R c msgE).events = []) := by
  have hpA : (m.processIncomingMessage R c msgA).events = [] := by
    simp [methods.processIncomingMessage, hA, methods.processAckRequest, hmA, hout]
  have hpE : m.processIncomingMessage R c msgE = m.processEmit R c msgE := by
    simp [methods.processIncomingMessage, hE]
  refine ⟨hpA, by rw [hpA]; rfl, by rw [hpA]; rfl, ?_, ?_, ?_⟩
  · intro hap
    rw [hpE, processEmit_found R m c msgE f hmE]
    simp [emitArgs, hap, invocations]
  · intro data hd
    rw [hpE, processEmit_found R m c msgE f hmE]
    simp [hd, invocations]
  · intro err hd
    rw [hpE, processEmit_found R m c msgE f hmE]
    simp [hd, invocations]

/-- Witness of C19 (as amended): `quit` is bound to a handler without argument
and result; the ack-request `quit` leaves no trace, the emit `quit` invokes the
handler. -/
theorem no_result_handler_witness :
    (quitMethods.processIncomingMessage refRuntime idleChannel
        ⟨MessageType.AckRequest, 7, "quit", ""⟩).events = [] ∧
      invocations (quitMethods.processIncomingMessage refRuntime idleChannel
        ⟨MessageType.Emit, 0, "quit", ""⟩).events
        = [(⟨3, 0, false, false⟩, 1, Value.emptyStruct)] :=
  ⟨(no_result_handler refRuntime quitMethods idleChannel ⟨3, 0, false, false⟩
      ⟨MessageType.AckRequest, 7, "quit", ""⟩ ⟨MessageType.Emit, 0, "quit", ""⟩
      rfl rfl rfl rfl rfl).1,
    (no_result_handler refRuntime quitMethods idleChannel ⟨3, 0, false, false⟩
      ⟨MessageType.AckRequest, 7, "quit", ""⟩ ⟨MessageType.Emit, 0, "quit", ""⟩
      rfl rfl rfl rfl rfl).2.2.2.1 rfl⟩

end GoSocketIO
